import Mathlib

/-!
Verification of the miniagent orchestration core (src/agent.rs, src/token.rs,
src/tools/file.rs) against its natural-language specification.

The embedding translates the Rust source shallowly:
* `serde_json::Value` is the mutual inductive `Json` / `JItems` / `JFields`.
* siumai's chat types (`ChatMessage`, `MessageRole`, `MessageContent`,
  `ContentPart`) are external collaborators; they are modelled from the spec
  ("Response yields: optional visible text, optional reasoning text,
  zero-or-more tool-call requests, and a flag indicating whether tool calls
  are present") and from how `agent.rs` constructs and consumes them.
* Rust `usize` arithmetic on sizes uses `Nat` (`saturating_sub` is `Nat`
  subtraction); UTF-8 byte slicing `&s[..n]`, which panics off a character
  boundary, is modelled as an `Option`-returning slice where `none` is the
  panic.
-/

namespace Miniagent

mutual

/-- JSON values (`serde_json::Value`); arrays and objects are separate
mutual inductives so that all recursion over them is structural. -/
inductive Json where
  | null : Json
  | bool (b : Bool) : Json
  | num (n : Int) : Json
  | str (s : String) : Json
  | arr (items : JItems) : Json
  | obj (fields : JFields) : Json

/-- A JSON array's element list. -/
inductive JItems where
  | nil : JItems
  | cons (hd : Json) (tl : JItems) : JItems

/-- A JSON object's field list (serde maps have unique keys). -/
inductive JFields where
  | nil : JFields
  | cons (key : String) (val : Json) (tl : JFields) : JFields

end

/-- `Value::get(key)` on an object: first field with a matching key. -/
def JFields.find : JFields → String → Option Json
  | .nil, _ => none
  | .cons k v tl, key => if k = key then some v else tl.find key

/-- `args.get(key)`: `Some` only on objects (serde `Value::get`). -/
def Json.get : Json → String → Option Json
  | .obj fs, key => fs.find key
  | _, _ => none

/-- `Value::as_str`. -/
def Json.asStr : Json → Option String
  | .str s => some s
  | _ => none

/-- serde string escaping for the characters relevant to this development;
other control characters (escaped as `\u00XX` by serde) only lengthen the
serialized text, which none of the proved properties depend on. -/
def escapeChar (c : Char) : String :=
  if c = '"' then "\\\""
  else if c = '\\' then "\\\\"
  else if c = '\n' then "\\n"
  else if c = '\r' then "\\r"
  else if c = '\t' then "\\t"
  else String.singleton c

/-- Escape a whole string for JSON serialization. -/
def escapeString (s : String) : String :=
  s.data.foldl (fun acc c => acc ++ escapeChar c) ""

mutual

/-- `serde_json::to_string` (compact form). -/
def Json.serialize : Json → String
  | .null => "null"
  | .bool true => "true"
  | .bool false => "false"
  | .num n => toString n
  | .str s => "\"" ++ escapeString s ++ "\""
  | .arr xs => "[" ++ JItems.serialize xs ++ "]"
  | .obj fs => "\x7b" ++ JFields.serialize fs ++ "\x7d"

/-- Comma-separated serialization of array elements. -/
def JItems.serialize : JItems → String
  | .nil => ""
  | .cons x .nil => Json.serialize x
  | .cons x (.cons y tl) => Json.serialize x ++ "," ++ JItems.serialize (.cons y tl)

/-- Comma-separated serialization of object fields. -/
def JFields.serialize : JFields → String
  | .nil => ""
  | .cons k v .nil => "\"" ++ escapeString k ++ "\":" ++ Json.serialize v
  | .cons k v (.cons k2 v2 tl) =>
      "\"" ++ escapeString k ++ "\":" ++ Json.serialize v ++ "," ++
        JFields.serialize (.cons k2 v2 tl)

end

/-- siumai `MessageRole` as used by `agent.rs`. -/
inductive MessageRole where
  | system : MessageRole
  | user : MessageRole
  | assistant : MessageRole
  | tool : MessageRole
deriving DecidableEq, BEq, Repr

/-- siumai `ContentPart`: the variants `agent.rs` constructs or inspects
(`Text`, `ToolCall`, `ToolResult`), plus a reasoning variant standing for
the part kinds that fall into the `_ => ()` arms of `token.rs` and
`agent.rs` (spec §9: Part is the tagged union Text / Reasoning /
ToolCallRequest / ToolCallResult). A tool result's `output` is modelled as
the text the code reads out of it via `to_string_lossy`. -/
inductive ContentPart where
  | text (text : String) : ContentPart
  | reasoning (text : String) : ContentPart
  | toolCall (tool_call_id tool_name : String) (arguments : Json) : ContentPart
  | toolResult (tool_call_id tool_name : String) (output : String) (is_error : Bool) : ContentPart

/-- siumai `MessageContent`: plain text or a sequence of parts. -/
inductive MessageContent where
  | text (t : String) : MessageContent
  | multiModal (parts : List ContentPart) : MessageContent

/-- siumai `ChatMessage`: a role-tagged conversational turn. -/
structure ChatMessage where
  role : MessageRole
  content : MessageContent

/-- `ChatMessage::system(s).build()`. -/
def ChatMessage.system (s : String) : ChatMessage := ⟨.system, .text s⟩

/-- `ChatMessage::user(s).build()`. -/
def ChatMessage.user (s : String) : ChatMessage := ⟨.user, .text s⟩

/-- `ChatMessage::assistant(s).build()`. -/
def ChatMessage.assistant (s : String) : ChatMessage := ⟨.assistant, .text s⟩

/-- `ChatMessage::assistant_with_content(parts).build()`. -/
def ChatMessage.assistant_with_content (ps : List ContentPart) : ChatMessage :=
  ⟨.assistant, .multiModal ps⟩

/-- `ChatMessage::tool_result_text(id, name, content).build()`: a Tool-role
message carrying one successful tool-result part. -/
def ChatMessage.tool_result_text (id name content : String) : ChatMessage :=
  ⟨.tool, .multiModal [.toolResult id name content false]⟩

/-- `ChatMessage::tool_error(id, name, err).build()`: a Tool-role message
carrying one failed tool-result part. -/
def ChatMessage.tool_error (id name err : String) : ChatMessage :=
  ⟨.tool, .multiModal [.toolResult id name err true]⟩

/-!  ## Token estimation (src/token.rs, `ApproxEstimator`)  -/

/-- `ApproxEstimator::count_text`: `(s.chars().count() as f64 / 2.5) as usize`.
For every character count `n` below `2 ^ 50` the `f64` computation equals
`⌊2n/5⌋` exactly (2.5 and n are exactly representable, the quotient's
error is below the distance to the next fifth), so the cast-to-`usize`
floor is `2 * n / 5` in `Nat`. -/
def count_text (s : String) : Nat := 2 * s.length / 5

/-- Cost contribution of one content part (`token.rs` lines 24-35);
part kinds outside the three matched ones contribute nothing. -/
def partCost : ContentPart → Nat
  | .text t => count_text t
  | .reasoning _ => 0
  | .toolCall _ _ args => count_text (Json.serialize args)
  | .toolResult _ _ output _ => count_text output

/-- Cost of a message's content. -/
def contentCost : MessageContent → Nat
  | .text t => count_text t
  | .multiModal ps => (ps.map partCost).sum

/-- `ApproxEstimator::count_messages`: per message, content cost plus a
fixed overhead of 4. -/
def count_messages : List ChatMessage → Nat
  | [] => 0
  | m :: ms => contentCost m.content + 4 + count_messages ms

/-- `Agent::run`'s budget threshold:
`self.token_limit.saturating_sub(self.completion_reserve)` (Nat subtraction
is saturating). -/
def threshold (tokenLimit completionReserve : Nat) : Nat :=
  tokenLimit - completionReserve

theorem count_messages_append (H : List ChatMessage) (m : ChatMessage) :
    count_messages (H ++ [m]) = count_messages H + (contentCost m.content + 4) := by
  induction H with
  | nil => simp [count_messages]
  | cons x xs ih => simp [count_messages, ih]; omega

/-- CLAIM C8: the approximate estimator is a non-negative per-message sum of
character cost (2·chars/5, i.e. chars divided by 2.5, over text, serialized
tool-call arguments and tool-result payloads) plus a fixed overhead of 4,
and appending a message never decreases the estimate. -/
theorem c8_estimator_monotone (H : List ChatMessage) (m : ChatMessage) :
    0 ≤ count_messages H
    ∧ count_messages H = (H.map (fun x => contentCost x.content + 4)).sum
    ∧ count_messages (H ++ [m]) = count_messages H + (contentCost m.content + 4)
    ∧ count_messages H ≤ count_messages (H ++ [m]) := by
  refine ⟨Nat.zero_le _, ?_, count_messages_append H m, ?_⟩
  · induction H with
    | nil => simp [count_messages]
    | cons x xs ih => simp [count_messages, ih]
  · rw [count_messages_append]; omega

/-- CLAIM C9: the budget threshold the loop compares the estimate against is
the saturating difference `tokenLimit − completionReserve`: over the
integers it equals `max (tokenLimit − completionReserve) 0`, it never
underflows (it is at most `tokenLimit`), and it is total. -/
theorem c9_threshold_saturates (tl cr : Nat) :
    ((threshold tl cr : Nat) : Int) = max ((tl : Int) - (cr : Int)) 0
    ∧ threshold tl cr ≤ tl := by
  unfold threshold
  constructor
  · omega
  · omega

/-!  ## History compaction (src/agent.rs, `Agent::summarize_history`)

`create_summary` issues one side-channel chat request per segment and may
fail; `summarize_history` applies `.unwrap_or_else(|_| String::new())` to
its result. The side channel is modelled as an oracle
`σ : Nat → List ChatMessage → Option String` mapping the round number and
the segment to the summary text, `none` standing for a failed call.
-/

/-- The fixed header prepended to every synthetic summary message. -/
def summaryHeader : String := "[Assistant Execution Summary]\n\n"

/-- Splits the tail of the history (everything after index 0) into the
leading non-User run and, from the first User message on, a list of
`(user message, following Assistant/Tool segment)` groups — exactly the
spans `summarize_history` iterates via `user_idxs`. -/
def groups : List ChatMessage → List (ChatMessage × List ChatMessage) × List ChatMessage
  | [] => ([], [])
  | m :: ms =>
      if m.role = MessageRole.user then ((m, (groups ms).2) :: (groups ms).1, [])
      else ((groups ms).1, m :: (groups ms).2)

/-- The `for (pos, &u_idx) in user_idxs` loop body: push the user message
verbatim; if the segment up to the next user message (or the end) is
non-empty, push one synthetic User message `summaryHeader ++ summary`,
with an empty summary when the side-channel call failed. -/
def buildCompact (σ : Nat → List ChatMessage → Option String) :
    Nat → List (ChatMessage × List ChatMessage) → List ChatMessage
  | _, [] => []
  | round, (u, seg) :: tl =>
      u :: ((if seg.isEmpty then []
             else [ChatMessage.user (summaryHeader ++ (σ round seg).getD "")]) ++
        buildCompact σ (round + 1) tl)

/-- `Agent::summarize_history`: keep index 0 verbatim; if no User message
exists beyond it, leave the history unchanged; otherwise rebuild it as
index 0 followed by the compacted user groups (the non-User run before the
first User message is dropped by the source loop). -/
def summarize_history (σ : Nat → List ChatMessage → Option String)
    (msgs : List ChatMessage) : List ChatMessage :=
  match msgs with
  | [] => msgs
  | m0 :: rest =>
      if ((groups rest).1).isEmpty then msgs
      else m0 :: buildCompact σ 1 (groups rest).1

theorem groups_decomp (l : List ChatMessage) :
    (groups l).2 ++ ((groups l).1.map (fun g => g.1 :: g.2)).flatten = l := by
  induction l with
  | nil => rfl
  | cons m ms ih =>
    by_cases h : m.role = MessageRole.user
    · simp only [groups, if_pos h, List.map_cons, List.flatten_cons, List.nil_append]
      simpa using ih
    · simp only [groups, if_neg h, List.cons_append]
      rw [ih]

theorem groups_roles (l : List ChatMessage) :
    (∀ m ∈ (groups l).2, ¬ m.role = MessageRole.user)
    ∧ (∀ g ∈ (groups l).1, g.1.role = MessageRole.user
        ∧ ∀ m ∈ g.2, ¬ m.role = MessageRole.user) := by
  induction l with
  | nil => simp [groups]
  | cons m ms ih =>
    by_cases h : m.role = MessageRole.user
    · simp only [groups, if_pos h]
      refine ⟨by simp, ?_⟩
      intro g hg
      rcases List.mem_cons.mp hg with hg | hg
      · subst hg; exact ⟨h, ih.1⟩
      · exact ih.2 g hg
    · simp only [groups, if_neg h]
      refine ⟨?_, ih.2⟩
      intro x hx
      rcases List.mem_cons.mp hx with hx | hx
      · subst hx; exact h
      · exact ih.1 x hx

theorem groups_fst_eq_filter (l : List ChatMessage) :
    (groups l).1.map Prod.fst = l.filter (fun m => decide (m.role = MessageRole.user)) := by
  induction l with
  | nil => rfl
  | cons m ms ih =>
    by_cases h : m.role = MessageRole.user
    · simp only [groups, if_pos h, List.map_cons, List.filter_cons]
      simp [h, ih]
    · simp only [groups, if_neg h, List.filter_cons]
      simp [h, ih]

theorem buildCompact_users_sublist (σ : Nat → List ChatMessage → Option String)
    (round : Nat) (gs : List (ChatMessage × List ChatMessage)) :
    List.Sublist (gs.map Prod.fst) (buildCompact σ round gs) := by
  induction gs generalizing round with
  | nil => simp [buildCompact]
  | cons g tl ih =>
    obtain ⟨u, seg⟩ := g
    simp only [buildCompact, List.map_cons]
    exact List.Sublist.cons₂ u ((ih (round + 1)).trans (List.sublist_append_right _ _))

theorem buildCompact_all_user (σ : Nat → List ChatMessage → Option String)
    (round : Nat) (gs : List (ChatMessage × List ChatMessage)) :
    (∀ g ∈ gs, g.1.role = MessageRole.user) →
    ∀ m ∈ buildCompact σ round gs, m.role = MessageRole.user := by
  induction gs generalizing round with
  | nil => intro _; simp [buildCompact]
  | cons g tl ih =>
    obtain ⟨u, seg⟩ := g
    intro hg m hm
    simp only [buildCompact, List.mem_cons, List.mem_append] at hm
    rcases hm with hm | hm
    · rw [hm]; exact hg (u, seg) (List.mem_cons_self _ _)
    · rcases hm with hm | hm
      · by_cases hseg : seg.isEmpty
        · simp [hseg] at hm
        · simp only [if_neg hseg, List.mem_singleton] at hm
          rw [hm]; rfl
      · exact ih (round + 1) (fun x hx => hg x (List.mem_cons_of_mem _ hx)) m hm

theorem groups_all_user (l : List ChatMessage) (h : ∀ m ∈ l, m.role = MessageRole.user) :
    groups l = (l.map (fun m => (m, [])), []) := by
  induction l with
  | nil => rfl
  | cons m ms ih =>
    have hm : m.role = MessageRole.user := h m (List.mem_cons_self _ _)
    have hrest := ih (fun x hx => h x (List.mem_cons_of_mem _ hx))
    simp only [groups, if_pos hm, hrest, List.map_cons]

theorem buildCompact_trivial (σ : Nat → List ChatMessage → Option String)
    (round : Nat) (l : List ChatMessage) :
    buildCompact σ round (l.map (fun m => (m, []))) = l := by
  induction l generalizing round with
  | nil => rfl
  | cons m ms ih => simp [buildCompact, ih]

theorem str_append_empty (s : String) : s ++ "" = s := by
  have : ("" : String).data = [] := rfl
  cases s with
  | mk d =>
    show String.mk (d ++ ("" : String).data) = String.mk d
    rw [this, List.append_nil]

/-- CLAIM C2: for every history whose index 0 is the System message,
compaction keeps that message at the front verbatim, keeps every User
message verbatim in the original relative order, and — on the
decomposition of the tail into the leading non-User run and the
user-headed segments computed by `groups` (whose heads are exactly the
User messages and whose segments contain no User message) — rebuilds the
history as index 0 followed by each User message with each non-empty
segment replaced by exactly one synthetic User message whose content is
`"[Assistant Execution Summary]\n\n"` followed by the summary text. -/
theorem c2_compaction_structure (σ : Nat → List ChatMessage → Option String)
    (m0 : ChatMessage) (rest : List ChatMessage)
    (_h0 : m0.role = MessageRole.system) :
    (summarize_history σ (m0 :: rest)).head? = some m0
    ∧ List.Sublist (rest.filter (fun m => decide (m.role = MessageRole.user)))
        (summarize_history σ (m0 :: rest))
    ∧ (groups rest).2 ++ ((groups rest).1.map (fun g => g.1 :: g.2)).flatten = rest
    ∧ (∀ g ∈ (groups rest).1, g.1.role = MessageRole.user
        ∧ ∀ m ∈ g.2, ¬ m.role = MessageRole.user)
    ∧ ((groups rest).1 ≠ [] →
        summarize_history σ (m0 :: rest) = m0 :: buildCompact σ 1 (groups rest).1)
    ∧ (∀ round u seg tl, buildCompact σ round ((u, seg) :: tl) =
        u :: ((if seg.isEmpty then []
               else [ChatMessage.user (summaryHeader ++ (σ round seg).getD "")]) ++
          buildCompact σ (round + 1) tl)) := by
  refine ⟨?_, ?_, groups_decomp rest, (groups_roles rest).2, ?_, fun round u seg tl => rfl⟩
  · by_cases h : ((groups rest).1).isEmpty
    · simp [summarize_history, h]
    · simp [summarize_history, h]
  · by_cases h : ((groups rest).1).isEmpty
    · have : (groups rest).1 = [] := List.isEmpty_iff.mp h
      rw [← groups_fst_eq_filter, this]
      simp [List.nil_sublist]
    · rw [← groups_fst_eq_filter]
      have hne : ¬ ((groups rest).1).isEmpty = true := h
      simp only [summarize_history, if_neg hne]
      exact ((buildCompact_users_sublist σ 1 _).trans (List.sublist_cons_self m0 _))
  · intro hne
    have : ¬ ((groups rest).1).isEmpty = true := by
      simpa [List.isEmpty_iff] using hne
    simp [summarize_history, this]

/-- CLAIM C3: compaction is idempotent — a second `summarize_history` run,
with any summary oracle, leaves an already-compacted history unchanged —
and compacting a history with zero User messages beyond index 0 is a
no-op. -/
theorem c3_compaction_idempotent (σ σ' τ : Nat → List ChatMessage → Option String)
    (msgs : List ChatMessage) :
    summarize_history σ' (summarize_history σ msgs) = summarize_history σ msgs
    ∧ ((∀ m ∈ msgs.drop 1, ¬ m.role = MessageRole.user) →
        summarize_history τ msgs = msgs) := by
  constructor
  · match msgs with
    | [] => rfl
    | m0 :: rest =>
      by_cases h : ((groups rest).1).isEmpty
      · simp [summarize_history, h]
      · simp only [summarize_history, if_neg h]
        have hall : ∀ m ∈ buildCompact σ 1 (groups rest).1, m.role = MessageRole.user :=
          buildCompact_all_user σ 1 _ (fun g hg => ((groups_roles rest).2 g hg).1)
        have hgr := groups_all_user _ hall
        have hne : buildCompact σ 1 (groups rest).1 ≠ [] := by
          obtain ⟨g, tl, hgs⟩ : ∃ g tl, (groups rest).1 = g :: tl := by
            cases hgs : (groups rest).1 with
            | nil => rw [hgs] at h; simp at h
            | cons g tl => exact ⟨g, tl, rfl⟩
          rw [hgs]
          obtain ⟨u, seg⟩ := g
          simp [buildCompact]
        have hne' : ¬ ((groups (buildCompact σ 1 (groups rest).1)).1).isEmpty = true := by
          rw [hgr]
          simpa using hne
        simp only [summarize_history, hgr, buildCompact_trivial]
        split <;> rfl
  · intro hnone
    match msgs with
    | [] => rfl
    | m0 :: rest =>
      have hfil : rest.filter (fun m => decide (m.role = MessageRole.user)) = [] := by
        rw [List.filter_eq_nil_iff]
        intro a ha
        simpa using hnone a (by simpa using ha)
      have : (groups rest).1 = [] := by
        have := groups_fst_eq_filter rest
        rw [hfil] at this
        exact List.map_eq_nil_iff.mp this
      simp [summarize_history, this]

/-- CLAIM C7: when the side-channel summarization call fails for a segment
(`σ round seg = none`), the synthetic message's content is exactly
`"[Assistant Execution Summary]\n\n"` (empty summary substituted), and a
history compacted under an always-failing side channel equals the one
compacted with empty summaries — the failure never surfaces as an error. -/
theorem c7_summary_failure_degrades (σ : Nat → List ChatMessage → Option String)
    (round : Nat) (seg : List ChatMessage) (hfail : σ round seg = none) :
    (∀ u tl, seg ≠ [] → buildCompact σ round ((u, seg) :: tl) =
        u :: ChatMessage.user "[Assistant Execution Summary]\n\n" ::
          buildCompact σ (round + 1) tl)
    ∧ (∀ msgs, summarize_history (fun _ _ => none) msgs =
        summarize_history (fun _ _ => some "") msgs) := by
  constructor
  · intro u tl hne
    have hseg : ¬ seg.isEmpty = true := by simpa [List.isEmpty_iff] using hne
    simp only [buildCompact, if_neg hseg, hfail, Option.getD_none]
    rw [str_append_empty]
    rfl
  · have hbc : ∀ r gs, buildCompact (fun _ _ => none) r gs = buildCompact (fun _ _ => some "") r gs := by
      intro r gs
      induction gs generalizing r with
      | nil => rfl
      | cons g tl ih =>
        obtain ⟨u, s⟩ := g
        simp only [buildCompact, Option.getD_none, Option.getD_some, ih]
    intro msgs
    match msgs with
    | [] => rfl
    | m0 :: rest =>
      by_cases h : ((groups rest).1).isEmpty
      · simp [summarize_history, h]
      · simp [summarize_history, h, hbc]

/-- Witness for C2: the hypothesis (index 0 is the System message) holds at
a concrete three-message history, and the theorem applies there. -/
theorem c2_compaction_structure_witness :
    (ChatMessage.system "sys").role = MessageRole.system
    ∧ (summarize_history (fun _ _ => some "S")
        (ChatMessage.system "sys" :: [ChatMessage.user "u1", ChatMessage.assistant "a1"])).head?
        = some (ChatMessage.system "sys")
    ∧ List.Sublist
        (([ChatMessage.user "u1", ChatMessage.assistant "a1"]).filter
          (fun m => decide (m.role = MessageRole.user)))
        (summarize_history (fun _ _ => some "S")
          (ChatMessage.system "sys" :: [ChatMessage.user "u1", ChatMessage.assistant "a1"]))
    ∧ summarize_history (fun _ _ => some "S")
        (ChatMessage.system "sys" :: [ChatMessage.user "u1", ChatMessage.assistant "a1"])
        = ChatMessage.system "sys" ::
            buildCompact (fun _ _ => some "S")
              1 (groups [ChatMessage.user "u1", ChatMessage.assistant "a1"]).1 :=
  ⟨rfl,
   (c2_compaction_structure (fun _ _ => some "S") (ChatMessage.system "sys")
      [ChatMessage.user "u1", ChatMessage.assistant "a1"] rfl).1,
   (c2_compaction_structure (fun _ _ => some "S") (ChatMessage.system "sys")
      [ChatMessage.user "u1", ChatMessage.assistant "a1"] rfl).2.1,
   (c2_compaction_structure (fun _ _ => some "S") (ChatMessage.system "sys")
      [ChatMessage.user "u1", ChatMessage.assistant "a1"] rfl).2.2.2.2.1
     (by rw [show (groups [ChatMessage.user "u1", ChatMessage.assistant "a1"]).1
           = [(ChatMessage.user "u1", [ChatMessage.assistant "a1"])] from rfl]
         exact List.cons_ne_nil _ _)⟩

/-- Witness for C3: the inner no-User-message hypothesis holds at a concrete
history and the theorem applies there. -/
theorem c3_compaction_idempotent_witness :
    summarize_history (fun _ _ => some "B")
        (summarize_history (fun _ _ => some "A")
          [ChatMessage.system "s", ChatMessage.assistant "a"])
      = summarize_history (fun _ _ => some "A")
          [ChatMessage.system "s", ChatMessage.assistant "a"]
    ∧ (∀ m ∈ ([ChatMessage.system "s", ChatMessage.assistant "a"] : List ChatMessage).drop 1,
        ¬ m.role = MessageRole.user)
    ∧ summarize_history (fun _ _ => some "T")
        [ChatMessage.system "s", ChatMessage.assistant "a"]
      = [ChatMessage.system "s", ChatMessage.assistant "a"] := by
  have h : ∀ m ∈ ([ChatMessage.system "s", ChatMessage.assistant "a"] : List ChatMessage).drop 1,
      ¬ m.role = MessageRole.user := by decide
  exact ⟨(c3_compaction_idempotent (fun _ _ => some "A") (fun _ _ => some "B")
            (fun _ _ => some "T") _).1,
         h,
         (c3_compaction_idempotent (fun _ _ => some "A") (fun _ _ => some "B")
            (fun _ _ => some "T") _).2 h⟩

/-- Witness for C7: a concretely failing side-channel call produces the bare
header as the synthetic message and degrades to the empty-summary run. -/
theorem c7_summary_failure_degrades_witness :
    ((fun (_ : Nat) (_ : List ChatMessage) => (none : Option String))
        1 [ChatMessage.assistant "a"] = none)
    ∧ buildCompact (fun _ _ => none) 1 ((ChatMessage.user "u", [ChatMessage.assistant "a"]) :: [])
        = ChatMessage.user "u" :: ChatMessage.user "[Assistant Execution Summary]\n\n" ::
            buildCompact (fun _ _ => none) (1 + 1) []
    ∧ summarize_history (fun _ _ => none)
        [ChatMessage.system "s", ChatMessage.user "u", ChatMessage.assistant "a"]
      = summarize_history (fun _ _ => some "")
        [ChatMessage.system "s", ChatMessage.user "u", ChatMessage.assistant "a"] :=
  ⟨rfl,
   (c7_summary_failure_degrades (fun _ _ => none) 1 [ChatMessage.assistant "a"] rfl).1
     (ChatMessage.user "u") [] (List.cons_ne_nil _ _),
   (c7_summary_failure_degrades (fun _ _ => none) 1 [ChatMessage.assistant "a"] rfl).2
     [ChatMessage.system "s", ChatMessage.user "u", ChatMessage.assistant "a"]⟩

/-!  ## The orchestration loop (src/agent.rs, `Agent::run`)

Rust's `&s[..n]` on a `String` yields the first `n` BYTES and panics when
`n` is not a UTF-8 character boundary; the slice is modelled as an
`Option`, `none` standing for the panic. The chat backend is modelled as
the finite list of responses it will produce, an exhausted list standing
for a transport/backend fault (the `?` on `chat_request`).
-/

/-- Walk characters consuming their UTF-8 widths to extract the prefix of
exactly `n` bytes; `none` when `n` is not a character boundary (or is past
the end), which in Rust is a panic. -/
def takeBytes : List Char → Nat → Option (List Char)
  | _, 0 => some []
  | [], _ + 1 => none
  | c :: cs, n + 1 =>
      if c.utf8Size ≤ n + 1 then (takeBytes cs (n + 1 - c.utf8Size)).map (fun l => c :: l)
      else none

/-- The Rust byte slice `&s[..n]` as a total function into `Option`. -/
def sliceBytes (s : String) (n : Nat) : Option String :=
  (takeBytes s.data n).map String.mk

/-- The truncation pattern of `agent.rs`:
`if s.len() > limit { format!("{}...", &s[..limit]) } else { s.clone() }` —
`s.len()` is the UTF-8 byte length. -/
def truncateBytes (s : String) (limit : Nat) : Option String :=
  if s.utf8ByteSize > limit then (sliceBytes s limit).map (fun p => p ++ "...") else some s

mutual

/-- `truncate_value` (agent.rs lines 195-215): truncate every string value
at 200, recursively through arrays and objects; other values are cloned.
The `none` result is the byte-slice panic. -/
def truncate_value : Json → Option Json
  | .str s => (truncateBytes s 200).map Json.str
  | .arr xs => (truncItems xs).map Json.arr
  | .obj fs => (truncFields fs).map Json.obj
  | v => some v

/-- `truncate_value` mapped over a JSON array. -/
def truncItems : JItems → Option JItems
  | .nil => some .nil
  | .cons x tl =>
      match truncate_value x, truncItems tl with
      | some x2, some tl2 => some (.cons x2 tl2)
      | _, _ => none

/-- `truncate_value` mapped over a JSON object's values (keys kept). -/
def truncFields : JFields → Option JFields
  | .nil => some .nil
  | .cons k v tl =>
      match truncate_value v, truncFields tl with
      | some v2, some tl2 => some (.cons k v2 tl2)
      | _, _ => none

end

/-- `ToolResult` (src/tools/base.rs). -/
structure ToolResult where
  success : Bool
  content : String
  error : Option String

/-- One model-issued tool call as read back by `call.as_tool_call()`:
call id, tool name, argument payload. -/
structure ToolCallInfo where
  tool_call_id : String
  tool_name : String
  arguments : Json

/-- A registered tool's `execute`, modelled as a pure function on the
argument payload (the claims under proof involve only pure tools). -/
def ToolFn : Type := Json → ToolResult

/-- `self.tools.get(name)`: exact, case-sensitive name lookup. The source
registry is a `HashMap` built by insertion; the claims never register the
same name twice, so an association list is an exact model. -/
def lookupTool : List (String × ToolFn) → String → Option ToolFn
  | [], _ => none
  | (k, f) :: ts, name => if k = name then some f else lookupTool ts name

/-- The dispatch in `Agent::run` (lines 220-227): execute the registered
tool, or synthesize the failed unknown-tool result. -/
def dispatchTool (tools : List (String × ToolFn)) (name : String) (args : Json) : ToolResult :=
  match lookupTool tools name with
  | some f => f args
  | none => ⟨false, "", some ("Unknown tool: " ++ name)⟩

/-- Observer notifications the loop emits around each tool call
(`on_tool_call` with the display-truncated arguments, `on_tool_result`
with the success flag and preview); the pretty-printing of the truncated
arguments is external, so the truncated JSON value itself is recorded. -/
inductive Event where
  | toolCall (name : String) (displayArgs : Json) : Event
  | toolResult (name : String) (success : Bool) (preview : String) : Event

/-- How a run can fail: the backend request fails (propagated `?`), or a
byte-slice truncation panics. -/
inductive RunError where
  | backendFault : RunError
  | panicked : RunError

/-- What `run()` produces on normal termination: the returned text, the
final history, the step counter at return, the number of backend chat
requests issued, and the tool-related observer notifications. -/
structure RunOutcome where
  result : String
  messages : List ChatMessage
  steps : Nat
  requests : Nat
  events : List Event

/-- A chat-backend response. Modelled from the spec: it yields optional
visible text, zero-or-more tool-call requests and a has-tool-calls flag;
`agent.rs` appends its `content` to history verbatim, so the response is
its content. -/
structure LlmResponse where
  content : MessageContent

/-- `response.tool_calls()` joined with `call.as_tool_call()`: the
tool-call parts of the content. -/
def LlmResponse.toolCalls (r : LlmResponse) : List ToolCallInfo :=
  match r.content with
  | .text _ => []
  | .multiModal ps => ps.filterMap fun p =>
      match p with
      | .toolCall id name args => some ⟨id, name, args⟩
      | _ => none

/-- `response.has_tool_calls()`. -/
def LlmResponse.hasToolCalls (r : LlmResponse) : Bool :=
  !(r.toolCalls.isEmpty)

/-- `response.content_text()`. Modelled from the spec: the optional visible
text — the plain text content, or the first text part. -/
def LlmResponse.contentText (r : LlmResponse) : Option String :=
  match r.content with
  | .text t => some t
  | .multiModal ps => (ps.filterMap fun p =>
      match p with
      | .text t => some t
      | _ => none).head?

/-- The Assistant message `Agent::run` appends for a response (lines
157-182): plain text or the parts, verbatim. -/
def assistantMessageOf (r : LlmResponse) : ChatMessage :=
  match r.content with
  | .text t => ChatMessage.assistant t
  | .multiModal ps => ChatMessage.assistant_with_content ps

/-- The sequential tool-call execution of `Agent::run` (lines 190-265):
for each call, truncate the arguments for display (a panic kills the run),
notify the observer, dispatch, then append one Tool-role message carrying
the success content (previewed at 300 bytes for the observer) or the error
text (shown in full). -/
def execCalls (tools : List (String × ToolFn)) :
    List ToolCallInfo → List ChatMessage → List Event →
      Except RunError (List ChatMessage × List Event)
  | [], msgs, evs => .ok (msgs, evs)
  | c :: cs, msgs, evs =>
      match truncate_value c.arguments with
      | none => .error .panicked
      | some disp =>
          let evs1 := evs ++ [Event.toolCall c.tool_name disp]
          let result := dispatchTool tools c.tool_name c.arguments
          if result.success then
            match truncateBytes result.content 300 with
            | none => .error .panicked
            | some preview =>
                execCalls tools cs
                  (msgs ++ [ChatMessage.tool_result_text c.tool_call_id c.tool_name
                    result.content])
                  (evs1 ++ [Event.toolResult c.tool_name true preview])
          else
            execCalls tools cs
              (msgs ++ [ChatMessage.tool_error c.tool_call_id c.tool_name
                (result.error.getD "Tool execution failed")])
              (evs1 ++ [Event.toolResult c.tool_name false
                (result.error.getD "Tool execution failed")])

/-- The step-ceiling message:
`format!("Task couldn't be completed after {} steps.", self.max_steps)`. -/
def ceilingMessage (maxSteps : Nat) : String :=
  "Task couldn't be completed after " ++ toString maxSteps ++ " steps."

/-- The loop of `Agent::run` (lines 118-268): summarize when the estimate
exceeds the threshold, soft-terminate at the step ceiling, consume one
backend response per iteration, append the Assistant message verbatim,
terminate on a response without tool calls, otherwise execute the calls
sequentially and continue with the step counter incremented. -/
def runLoop (σ : Nat → List ChatMessage → Option String)
    (tools : List (String × ToolFn)) (tokenLimit completionReserve maxSteps : Nat) :
    List LlmResponse → Nat → Nat → List Event → List ChatMessage →
      Except RunError RunOutcome
  | backend, step, reqs, evs, msgs =>
      let msgs1 := if count_messages msgs > threshold tokenLimit completionReserve
                   then summarize_history σ msgs else msgs
      if step ≥ maxSteps then
        .ok ⟨ceilingMessage maxSteps, msgs1, step, reqs, evs⟩
      else
        match backend with
        | [] => .error .backendFault
        | r :: rest =>
            let msgs2 := msgs1 ++ [assistantMessageOf r]
            if r.hasToolCalls then
              match execCalls tools r.toolCalls msgs2 evs with
              | .error e => .error e
              | .ok (msgs3, evs3) =>
                  runLoop σ tools tokenLimit completionReserve maxSteps
                    rest (step + 1) (reqs + 1) evs3 msgs3
            else
              .ok ⟨(r.contentText).getD "", msgs2, step, reqs + 1, evs⟩

/-- `Agent::run`: the loop started with `step = 0`, no requests issued and
no notifications emitted yet. -/
def run (σ : Nat → List ChatMessage → Option String)
    (tools : List (String × ToolFn)) (tokenLimit completionReserve maxSteps : Nat)
    (backend : List LlmResponse) (msgs : List ChatMessage) :
    Except RunError RunOutcome :=
  runLoop σ tools tokenLimit completionReserve maxSteps backend 0 0 [] msgs

/-- Returned text of a normally terminated run. -/
def runResultText : Except RunError RunOutcome → Option String
  | .ok o => some o.result
  | .error _ => none

/-- Step counter at normal termination. -/
def runStepsOf : Except RunError RunOutcome → Option Nat
  | .ok o => some o.steps
  | .error _ => none

/-- Number of backend chat requests issued by a normally terminated run. -/
def runRequestsOf : Except RunError RunOutcome → Option Nat
  | .ok o => some o.requests
  | .error _ => none

/-- The Tool-role messages of the final history of a normally terminated
run. -/
def runToolMessages : Except RunError RunOutcome → Option (List ChatMessage)
  | .ok o => some (o.messages.filter (fun m => decide (m.role = MessageRole.tool)))
  | .error _ => none

/-- Modelled from the spec: the test scenario's echo tool, whose `execute`
succeeds with the `text` argument as content (for `text="hi"`:
`success=true, content="hi"`). -/
def echoTool : ToolFn := fun args =>
  match (args.get "text").bind Json.asStr with
  | some s => ⟨true, s, none⟩
  | none => ⟨false, "", some "missing text"⟩

/-- The C1 scenario's argument payload. -/
def c1_args : Json := Json.obj (.cons "text" (.str "hi") .nil)

/-- The C1 scenario's backend: first a single `echoTool(text="hi")` call,
then the final text `"Done: hi"` with no tool calls. -/
def c1_backend : List LlmResponse :=
  [⟨.multiModal [.toolCall "call_1" "echoTool" c1_args]⟩, ⟨.text "Done: hi"⟩]

/-- The C1 scenario run: `echoTool` registered, the scenario's system
prompt, one user message, `maxSteps = 3`, default budget parameters. -/
def c1_run : Except RunError RunOutcome :=
  run (fun _ _ => some "") [("echoTool", echoTool)] 80000 2048 3 c1_backend
    [ChatMessage.system "you are a test agent", ChatMessage.user "call echo with text=hi"]

/-- CLAIM C1: in the echo scenario, `run()` returns `"Done: hi"`, the final
history contains exactly one Tool-role message and it carries the content
`"hi"`, the step counter equals 1 at termination (and exactly the two
scripted backend requests were issued). -/
theorem c1_echo_scenario :
    runResultText c1_run = some "Done: hi"
    ∧ runToolMessages c1_run = some [ChatMessage.tool_result_text "call_1" "echoTool" "hi"]
    ∧ runStepsOf c1_run = some 1
    ∧ runRequestsOf c1_run = some 2 :=
  ⟨rfl, rfl, rfl, rfl⟩

/-- CLAIM C4: a tool-call request whose name is not registered is answered
by a synthesized ToolResult with `success = false` and error exactly
`"Unknown tool: <name>"`, appended to history as a Tool-role error
message, after which the loop continues with the remaining calls instead
of terminating. -/
theorem c4_unknown_tool (tools : List (String × ToolFn)) (c : ToolCallInfo)
    (cs : List ToolCallInfo) (msgs : List ChatMessage) (evs : List Event) (d : Json)
    (hl : lookupTool tools c.tool_name = none)
    (ht : truncate_value c.arguments = some d) :
    dispatchTool tools c.tool_name c.arguments
      = ⟨false, "", some ("Unknown tool: " ++ c.tool_name)⟩
    ∧ execCalls tools (c :: cs) msgs evs
      = execCalls tools cs
          (msgs ++ [ChatMessage.tool_error c.tool_call_id c.tool_name
            ("Unknown tool: " ++ c.tool_name)])
          (evs ++ [Event.toolCall c.tool_name d,
                   Event.toolResult c.tool_name false
                     ("Unknown tool: " ++ c.tool_name)]) := by
  have hd : dispatchTool tools c.tool_name c.arguments
      = ⟨false, "", some ("Unknown tool: " ++ c.tool_name)⟩ := by
    unfold dispatchTool
    rw [hl]
  refine ⟨hd, ?_⟩
  simp only [execCalls, ht, hd, Option.getD_some, List.append_assoc, List.cons_append,
    List.nil_append, Bool.false_eq_true, if_false]

/-- Witness for C4: dispatching against an empty registry. -/
theorem c4_unknown_tool_witness :
    lookupTool [] "nope" = none
    ∧ truncate_value Json.null = some Json.null
    ∧ dispatchTool [] "nope" Json.null = ⟨false, "", some ("Unknown tool: " ++ "nope")⟩
    ∧ execCalls [] (⟨"id1", "nope", Json.null⟩ :: []) [] []
      = execCalls [] []
          ([] ++ [ChatMessage.tool_error "id1" "nope" ("Unknown tool: " ++ "nope")])
          ([] ++ [Event.toolCall "nope" Json.null,
                  Event.toolResult "nope" false ("Unknown tool: " ++ "nope")]) :=
  ⟨rfl, rfl,
   (c4_unknown_tool [] ⟨"id1", "nope", Json.null⟩ [] [] [] Json.null rfl rfl).1,
   (c4_unknown_tool [] ⟨"id1", "nope", Json.null⟩ [] [] [] Json.null rfl rfl).2⟩

/-- CLAIM C5: with `maxSteps = 0` and a history whose estimate does not
exceed the budget threshold, `run()` terminates immediately with the
step-ceiling message as a normal `Ok` result — history untouched, zero
backend requests issued — whatever the backend would have answered. -/
theorem c5_zero_max_steps (σ : Nat → List ChatMessage → Option String)
    (tools : List (String × ToolFn)) (tl cr : Nat) (backend : List LlmResponse)
    (msgs : List ChatMessage)
    (h : count_messages msgs ≤ threshold tl cr) :
    run σ tools tl cr 0 backend msgs
      = .ok ⟨"Task couldn't be completed after 0 steps.", msgs, 0, 0, []⟩ := by
  have hns : ¬ count_messages msgs > threshold tl cr := by omega
  unfold run runLoop
  simp only [hns, if_false, ge_iff_le, le_refl, if_true]
  rfl

/-- Witness for C5: a concrete under-budget session with `maxSteps = 0`. -/
theorem c5_zero_max_steps_witness :
    count_messages [ChatMessage.system "s"] ≤ threshold 10 2
    ∧ run (fun _ _ => some "") [] 10 2 0 [] [ChatMessage.system "s"]
      = .ok ⟨"Task couldn't be completed after 0 steps.", [ChatMessage.system "s"], 0, 0, []⟩ :=
  ⟨by decide,
   c5_zero_max_steps (fun _ _ => some "") [] 10 2 [] [ChatMessage.system "s"] (by decide)⟩

/-- CLAIM C6 (refuted — code bug): the display truncation is NOT safe on
arbitrary Unicode argument payloads. `truncate_value` compares the BYTE
length (`s.len() > 200`) and slices at byte offset 200 (`&s[..200]`),
which panics when byte 200 is not a UTF-8 character boundary. The string
of 67 euro signs is 67 characters (the claim would leave it untouched:
67 ≤ 200 characters) but 201 bytes, and byte 200 falls inside its last
character, so the truncation panics and the panic propagates out of the
tool-call loop, killing the run. -/
theorem c6_truncation_panics :
    (String.mk (List.replicate 67 '€')).length = 67
    ∧ (String.mk (List.replicate 67 '€')).utf8ByteSize = 201
    ∧ truncate_value (Json.str (String.mk (List.replicate 67 '€'))) = none
    ∧ truncate_value
        (Json.obj (.cons "text" (.str (String.mk (List.replicate 67 '€'))) .nil)) = none
    ∧ execCalls [] [⟨"id1", "t", Json.str (String.mk (List.replicate 67 '€'))⟩] [] []
      = .error .panicked :=
  ⟨rfl, rfl, rfl, rfl, rfl⟩

/-!  ## WriteTool (src/tools/file.rs, `WriteTool::execute`)  -/

/-- `resolve_path` (file.rs lines 17-24): an absolute input is used as-is,
a relative one is joined onto the workspace (Unix absoluteness = leading
slash; `Path::join` modelled as inserting one separator). -/
def resolve_path (workspace input : String) : String :=
  if input.startsWith "/" then input else workspace ++ "/" ++ input

/-- The file store the tool writes through, newest binding first;
`tokio::fs::write` (after `create_dir_all` on the parent) replaces the
target's content. The model's write always succeeds: I/O faults are
environmental and outside the argument-handling behavior under claim. -/
def fsWrite (path content : String) (fs : List (String × String)) :
    List (String × String) :=
  (path, content) :: fs

/-- Read a path back from the file store (newest binding wins). -/
def fsRead (path : String) : List (String × String) → Option String
  | [] => none
  | (k, v) :: tl => if k = path then some v else fsRead path tl

/-- `WriteTool::execute` (file.rs lines 90-117): `path` must be a string
argument or the call fails with `missing 'path'`; a missing or non-string
`content` defaults to the empty string (`unwrap_or("")`); the resolved
target is created/overwritten and the success result reports the byte
count written. -/
def WriteTool.execute (workspace : String) (fs : List (String × String)) (args : Json) :
    ToolResult × List (String × String) :=
  let path := (args.get "path").bind Json.asStr
  let content := ((args.get "content").bind Json.asStr).getD ""
  match path with
  | none => (⟨false, "", some "missing 'path'"⟩, fs)
  | some p =>
      let full := resolve_path workspace p
      (⟨true, "wrote " ++ toString content.utf8ByteSize ++ " bytes to " ++ full, none⟩,
       fsWrite full content fs)

/-- CLAIM C10: an argument object with a string `path` but no usable string
`content` makes `WriteTool::execute` treat the content as empty: it
succeeds (no missing-argument error) and overwrites the target with the
empty string; and a call fails exactly when `path` is missing or not a
string. -/
theorem c10_write_content_defaults (workspace : String) (fs : List (String × String))
    (args : Json) (p : String)
    (hp : args.get "path" = some (Json.str p))
    (hc : (args.get "content").bind Json.asStr = none) :
    (WriteTool.execute workspace fs args).1.success = true
    ∧ (WriteTool.execute workspace fs args).1.error = none
    ∧ fsRead (resolve_path workspace p) (WriteTool.execute workspace fs args).2 = some ""
    ∧ (∀ args2 : Json, (WriteTool.execute workspace fs args2).1.success = false
        ↔ (args2.get "path").bind Json.asStr = none) := by
  have hpath : (args.get "path").bind Json.asStr = some p := by rw [hp]; rfl
  refine ⟨?_, ?_, ?_, ?_⟩
  · simp [WriteTool.execute, hpath, hc]
  · simp [WriteTool.execute, hpath, hc]
  · simp [WriteTool.execute, hpath, hc, fsWrite, fsRead]
  · intro args2
    cases h2 : (args2.get "path").bind Json.asStr <;> simp [WriteTool.execute, h2]

/-- Witness for C10: writing `{"path": "a.txt"}` with no `content` field
into an empty store under workspace `/ws`. -/
theorem c10_write_content_defaults_witness :
    (Json.obj (.cons "path" (.str "a.txt") .nil)).get "path" = some (Json.str "a.txt")
    ∧ ((Json.obj (.cons "path" (.str "a.txt") .nil)).get "content").bind Json.asStr = none
    ∧ (WriteTool.execute "/ws" [] (Json.obj (.cons "path" (.str "a.txt") .nil))).1.success = true
    ∧ (WriteTool.execute "/ws" [] (Json.obj (.cons "path" (.str "a.txt") .nil))).1.error = none
    ∧ fsRead (resolve_path "/ws" "a.txt")
        (WriteTool.execute "/ws" [] (Json.obj (.cons "path" (.str "a.txt") .nil))).2 = some ""
    ∧ ((WriteTool.execute "/ws" [] Json.null).1.success = false
        ↔ (Json.null.get "path").bind Json.asStr = none) :=
  ⟨rfl, rfl,
   (c10_write_content_defaults "/ws" []
     (Json.obj (.cons "path" (.str "a.txt") .nil)) "a.txt" rfl rfl).1,
   (c10_write_content_defaults "/ws" []
     (Json.obj (.cons "path" (.str "a.txt") .nil)) "a.txt" rfl rfl).2.1,
   (c10_write_content_defaults "/ws" []
     (Json.obj (.cons "path" (.str "a.txt") .nil)) "a.txt" rfl rfl).2.2.1,
   (c10_write_content_defaults "/ws" []
     (Json.obj (.cons "path" (.str "a.txt") .nil)) "a.txt" rfl rfl).2.2.2 Json.null⟩

end Miniagent
